import Mathlib

/-!
Verification development for the HydroPump configuration service
(`hydropump/backend/base.py`, `hydropump/backend/file_system.py`,
`hydropump/service.py`, `hydropump/instruction.py`).

Values stored in instructions and templates are JSON/YAML documents; we embed
them as the inductive type `Json`.  Python `dict`s are insertion-ordered
association lists with unique keys, embedded as `List (String × Json)`;
`dict.get` is `lookup` and `dict.__setitem__` is `assign` (updating the value
in place when the key exists, appending otherwise).

Python exceptions are embedded as an error type `Err`; a fallible operation
returns `Except Err α`.  Exception messages are irrelevant to every property
proved here and are dropped (constructors carry the exception class only).
-/

namespace HydroPump

/-- A JSON/YAML value: the payload type of instruction and template sources. -/
inductive Json where
  | null : Json
  | bool (b : Bool) : Json
  | num (n : Int) : Json
  | str (s : String) : Json
  | arr (elems : List Json) : Json
  | obj (fields : List (String × Json)) : Json
  deriving Repr

mutual

/-- Decidable equality of `Json` values (the nested inductive prevents
automatic derivation). -/
def Json.decEq : (a b : Json) → Decidable (a = b)
  | .null, .null => .isTrue rfl
  | .bool a, .bool b =>
    if h : a = b then .isTrue (by rw [h])
    else .isFalse (fun hh => h (Json.bool.inj hh))
  | .num a, .num b =>
    if h : a = b then .isTrue (by rw [h])
    else .isFalse (fun hh => h (Json.num.inj hh))
  | .str a, .str b =>
    if h : a = b then .isTrue (by rw [h])
    else .isFalse (fun hh => h (Json.str.inj hh))
  | .arr a, .arr b =>
    match Json.decEqList a b with
    | .isTrue h => .isTrue (by rw [h])
    | .isFalse h => .isFalse (fun hh => h (Json.arr.inj hh))
  | .obj a, .obj b =>
    match Json.decEqObj a b with
    | .isTrue h => .isTrue (by rw [h])
    | .isFalse h => .isFalse (fun hh => h (Json.obj.inj hh))
  | .null, .bool _ => .isFalse (fun h => Json.noConfusion h)
  | .null, .num _ => .isFalse (fun h => Json.noConfusion h)
  | .null, .str _ => .isFalse (fun h => Json.noConfusion h)
  | .null, .arr _ => .isFalse (fun h => Json.noConfusion h)
  | .null, .obj _ => .isFalse (fun h => Json.noConfusion h)
  | .bool _, .null => .isFalse (fun h => Json.noConfusion h)
  | .bool _, .num _ => .isFalse (fun h => Json.noConfusion h)
  | .bool _, .str _ => .isFalse (fun h => Json.noConfusion h)
  | .bool _, .arr _ => .isFalse (fun h => Json.noConfusion h)
  | .bool _, .obj _ => .isFalse (fun h => Json.noConfusion h)
  | .num _, .null => .isFalse (fun h => Json.noConfusion h)
  | .num _, .bool _ => .isFalse (fun h => Json.noConfusion h)
  | .num _, .str _ => .isFalse (fun h => Json.noConfusion h)
  | .num _, .arr _ => .isFalse (fun h => Json.noConfusion h)
  | .num _, .obj _ => .isFalse (fun h => Json.noConfusion h)
  | .str _, .null => .isFalse (fun h => Json.noConfusion h)
  | .str _, .bool _ => .isFalse (fun h => Json.noConfusion h)
  | .str _, .num _ => .isFalse (fun h => Json.noConfusion h)
  | .str _, .arr _ => .isFalse (fun h => Json.noConfusion h)
  | .str _, .obj _ => .isFalse (fun h => Json.noConfusion h)
  | .arr _, .null => .isFalse (fun h => Json.noConfusion h)
  | .arr _, .bool _ => .isFalse (fun h => Json.noConfusion h)
  | .arr _, .num _ => .isFalse (fun h => Json.noConfusion h)
  | .arr _, .str _ => .isFalse (fun h => Json.noConfusion h)
  | .arr _, .obj _ => .isFalse (fun h => Json.noConfusion h)
  | .obj _, .null => .isFalse (fun h => Json.noConfusion h)
  | .obj _, .bool _ => .isFalse (fun h => Json.noConfusion h)
  | .obj _, .num _ => .isFalse (fun h => Json.noConfusion h)
  | .obj _, .str _ => .isFalse (fun h => Json.noConfusion h)
  | .obj _, .arr _ => .isFalse (fun h => Json.noConfusion h)

/-- Decidable equality of `Json` lists. -/
def Json.decEqList : (a b : List Json) → Decidable (a = b)
  | [], [] => .isTrue rfl
  | [], _ :: _ => .isFalse (fun h => List.noConfusion h)
  | _ :: _, [] => .isFalse (fun h => List.noConfusion h)
  | a :: as, b :: bs =>
    match Json.decEq a b with
    | .isTrue h1 =>
      match Json.decEqList as bs with
      | .isTrue h2 => .isTrue (by rw [h1, h2])
      | .isFalse h2 => .isFalse (fun hh => h2 (List.cons.inj hh).2)
    | .isFalse h1 => .isFalse (fun hh => h1 (List.cons.inj hh).1)

/-- Decidable equality of `Json` field lists. -/
def Json.decEqObj : (a b : List (String × Json)) → Decidable (a = b)
  | [], [] => .isTrue rfl
  | [], _ :: _ => .isFalse (fun h => List.noConfusion h)
  | _ :: _, [] => .isFalse (fun h => List.noConfusion h)
  | (ka, va) :: as, (kb, vb) :: bs =>
    if hk : ka = kb then
      match Json.decEq va vb with
      | .isTrue h1 =>
        match Json.decEqObj as bs with
        | .isTrue h2 => .isTrue (by rw [hk, h1, h2])
        | .isFalse h2 => .isFalse (fun hh => h2 (List.cons.inj hh).2)
      | .isFalse h1 =>
        .isFalse (fun hh => h1 (congrArg Prod.snd (List.cons.inj hh).1))
    else
      .isFalse (fun hh => hk (congrArg Prod.fst (List.cons.inj hh).1))

end

instance : DecidableEq Json := Json.decEq

/-- A Python mapping from string keys to JSON values, in insertion order. -/
abbrev Obj := List (String × Json)

/-- Python `d.get(k)` / `d[k]`: the value of the first matching key. -/
def lookup (k : String) : Obj → Option Json
  | [] => none
  | (k', v) :: rest => if k' = k then some v else lookup k rest

/-- Python `d[k] = v`: replace the value in place when `k` is present
(keeping its position), append the pair otherwise. -/
def assign (k : String) (v : Json) : Obj → Obj
  | [] => [(k, v)]
  | (k', v') :: rest => if k' = k then (k', v) :: rest else (k', v') :: assign k v rest

/-- The list of keys of a mapping, in order. -/
def keysB (fields : Obj) : List String := fields.map Prod.fst

/-!
`Backend._compile(parent, child, output=None)` from
`hydropump/backend/base.py` lines 39-60.

In the source, `output` defaults to `None` and is then aliased to `child`; in
the recursive call for the nested-mapping branch the two arguments passed are
`child.get(k, {})` and `output.get(k, {})`, which are the same object whenever
`child` and `output` are — and every external call (`compile_instruction`)
passes `output=None`.  So on every reachable call `output` and `child` are one
object, and the function is embedded with a single accumulator `out`
(initially the child), threaded through the loop over `parent`'s items.

The per-key branches of the loop body are `_compileStep`:
- scalar values overwrite: `output[k] = v`;
- list values concatenate: `output[k] = output.get(k, []) + v`, which raises
  `TypeError` (embedded as `none`) when the accumulated value at `k` exists
  and is not a list;
- dict values recurse: `output[k] = self._compile(v, child.get(k, {}), output.get(k, {}))`;
  when the accumulated value at `k` exists and is not a dict, the recursive
  call crashes on its first iteration (embedded as `none`) unless `v` is the
  empty dict, in which case the inner loop runs zero times and the existing
  value is written back unchanged;
- values of any other type (`None` in a JSON document) fall through the
  `if`/`elif` chain: the key is skipped entirely.
-/
mutual

/-- Loop of `Backend._compile` over `parent.items()`, threading the
`output`/`child` accumulator; `none` embeds a raised exception. -/
def _compile : Obj → Obj → Option Obj
  | [], out => some out
  | (k, v) :: rest, out =>
    match _compileStep k v out with
    | some out' => _compile rest out'
    | none => none

/-- One iteration of the `Backend._compile` loop body, for key `k` with
parent value `v`, acting on the accumulator `out`. -/
def _compileStep (k : String) (v : Json) (out : Obj) : Option Obj :=
  match v with
  | .str s => some (assign k (.str s) out)
  | .num n => some (assign k (.num n) out)
  | .bool b => some (assign k (.bool b) out)
  | .arr xs =>
    match lookup k out with
    | none => some (assign k (.arr xs) out)
    | some (.arr ys) => some (assign k (.arr (ys ++ xs)) out)
    | some _ => none
  | .obj pf =>
    match lookup k out with
    | some (.obj cf) =>
      match _compile pf cf with
      | some sub => some (assign k (.obj sub) out)
      | none => none
    | none =>
      match _compile pf [] with
      | some sub => some (assign k (.obj sub) out)
      | none => none
    | some w =>
      match pf with
      | [] => some (assign k w out)
      | _ :: _ => none
  | .null => some out

end

/-- Python exception classes raised by the embedded code.  Messages are
dropped; only the class matters to the properties proved here. -/
inductive Err where
  | fileNotFound : Err
  | valueError : Err
  | typeError : Err
  | attributeError : Err
  | keyError : Err
  deriving DecidableEq, Repr

/-- Python truthiness of an optional string: `None` and `""` are falsy.
Used to embed `x or y` fallbacks on identifier arguments. -/
def strFalsy : Option String → Bool
  | none => true
  | some s => s = ""

/-- A placeholder for `str(uuid4())`.  The generated id is fresh and
unpredictable; no property proved here depends on its value, so it is
embedded as a fixed token. -/
def uuid4 : String := "00000000-0000-4000-8000-000000000000"

/-- Python `identifier or str(uuid4())`: keep a truthy identifier, otherwise
generate one. -/
def orUuid (id : Option String) : String :=
  match id with
  | some s => if s = "" then uuid4 else s
  | none => uuid4

/-- The `Instruction` entity (`hydropump/instruction.py` lines 74-140):
an id, a metadata mapping and a source mapping.  The dict-envelope view
`{"metadata": ..., "instruction": ...}` maintained by `set_source` is the
serialization shape and is recovered by the store operations. -/
structure Instruction where
  instruction_id : String
  metadata : Obj
  source : Obj
  deriving DecidableEq, Repr

/-- Embedding of `Instruction.__init__`: generates the id when the argument is falsy and
unconditionally stamps `metadata["compiled"] = False`.  `metadata or {}` and
`source or {}` replace falsy (`None`/empty) arguments by `{}`, which has the
same value as keeping an empty mapping, so the embedding takes the mappings
directly. -/
def Instruction.make (instruction_id : Option String) (metadata source : Obj) :
    Instruction :=
  { instruction_id := orUuid instruction_id
    metadata := assign "compiled" (.bool false) metadata
    source := source }

/-- The `Template` entity (`hydropump/instruction.py` lines 6-71), with
envelope `{"metadata": ..., "template": ...}`. -/
structure Template where
  template_id : String
  metadata : Obj
  source : Obj
  deriving DecidableEq, Repr

/-- Embedding of `Template.__init__`: same shape as `Instruction.__init__`. -/
def Template.make (template_id : Option String) (metadata source : Obj) :
    Template :=
  { template_id := orUuid template_id
    metadata := assign "compiled" (.bool false) metadata
    source := source }

/-- A persisted entity file: the deserialized envelope's `metadata` mapping
and its `instruction`/`template` mapping.  The serialization codec itself
(JSON or YAML) is the external collaborator and is not modelled. -/
structure Entry where
  metadata : Obj
  source : Obj
  deriving DecidableEq, Repr

/-- The state of the filesystem store under the backend root: one file per id
in the `base/` namespace and one per id in the `template/` namespace. -/
structure Store where
  base : String → Option Entry
  template : String → Option Entry

/-- A store with no persisted entities. -/
def emptyStore : Store := { base := fun _ => none, template := fun _ => none }

/-- Embedding of `FileSystemBackend.get_base` (`file_system.py` lines 84-103): fail with
`FileNotFoundError` when no file exists for the id, otherwise deserialize and
rebuild the `Instruction` through its constructor.  Reading performs no
write, so the store is returned unchanged. -/
def get_base (st : Store) (instruction_id : String) :
    Except Err (Instruction × Store) :=
  match st.base instruction_id with
  | none => .error .fileNotFound
  | some e => .ok (Instruction.make (some instruction_id) e.metadata e.source, st)

/-- Embedding of `FileSystemBackend.get_template` (`file_system.py` lines 63-82):
symmetric to `get_base` in the `template/` namespace. -/
def get_template (st : Store) (template_id : String) :
    Except Err (Template × Store) :=
  match st.template template_id with
  | none => .error .fileNotFound
  | some e => .ok (Template.make (some template_id) e.metadata e.source, st)

/-- Embedding of `FileSystemBackend.delete_base` (`file_system.py` lines 194-211):
requires an instruction or an id (`ValueError` otherwise); a falsy id falls
back to `instruction.instruction_id`, which raises `AttributeError` when no
instruction was given; then removes the file if it exists, silently doing
nothing otherwise. -/
def delete_base (st : Store) (instruction : Option Instruction)
    (instruction_id : Option String) : Except Err Store :=
  if instruction.isNone && instruction_id.isNone then .error .valueError
  else
    match (if strFalsy instruction_id then instruction.map (·.instruction_id)
           else instruction_id) with
    | none => .error .attributeError
    | some id =>
      match st.base id with
      | some _ => .ok { st with base := fun i => if i = id then none else st.base i }
      | none => .ok st

/-- Embedding of `FileSystemBackend.delete_template` (`file_system.py` lines 176-192):
symmetric to `delete_base`. -/
def delete_template (st : Store) (template : Option Template)
    (template_id : Option String) : Except Err Store :=
  if template.isNone && template_id.isNone then .error .valueError
  else
    match (if strFalsy template_id then template.map (·.template_id)
           else template_id) with
    | none => .error .attributeError
    | some id =>
      match st.template id with
      | some _ => .ok { st with template := fun i => if i = id then none else st.template i }
      | none => .ok st

/-- Python `source or template.source` (and the analogous `metadata`
resolution) in `put_template`: a falsy (`None` or empty) argument falls back
to the attribute of `template`, raising `AttributeError` when `template` is
`None`. -/
def orAttr (x : Option Obj) (fallback : Option Template) (f : Template → Obj) :
    Except Err Obj :=
  match x with
  | some v =>
    if v = [] then
      match fallback with
      | some t => .ok (f t)
      | none => .error .attributeError
    else .ok v
  | none =>
    match fallback with
    | some t => .ok (f t)
    | none => .error .attributeError

/-- Embedding of `FileSystemBackend.put_template` (`file_system.py` lines 105-138):
requires a template or an id (`ValueError` otherwise); resolves id, source
and metadata with falsy fallbacks to the `template` argument; constructs a
`Template` when none was passed; then replaces the file for the
resolved id with the template's envelope and returns the template. -/
def put_template (st : Store) (template : Option Template)
    (template_id : Option String) (metadata source : Option Obj) :
    Except Err (Template × Store) :=
  if template.isNone && template_id.isNone then .error .valueError
  else
    match (if strFalsy template_id then template.map (·.template_id)
           else template_id) with
    | none => .error .attributeError
    | some id =>
      match orAttr source template (·.source) with
      | .error e => .error e
      | .ok src =>
        match orAttr metadata template (·.metadata) with
        | .error e => .error e
        | .ok meta =>
          let t := match template with
            | some t0 => t0
            | none => Template.make (some id) meta src
          .ok (t, { st with template := fun i =>
            if i = id then some { metadata := t.metadata, source := t.source }
            else st.template i })

/-- Python `instruction.metadata.get("templates", [])` followed by iteration:
an absent key yields the empty list; a list value yields its elements; any
other value is not a valid iterable of template ids and the loop raises
(collapsed to `TypeError` here — iterating a non-list JSON value either
raises or produces values that are not template ids). -/
def getTemplatesValue (metadata : Obj) : Except Err (List Json) :=
  match lookup "templates" metadata with
  | none => .ok []
  | some (.arr xs) => .ok xs
  | some _ => .error .typeError

/-- The `for template_id in ...` loop of `Backend.compile_instruction`
(`base.py` lines 72-75): fetch each declared template in order and fold the
accumulator with `template = self._compile(template_instruction["template"], template)`,
where `template_instruction["template"]` is the fetched template's source.
A non-string template id is collapsed to `TypeError` (see
`getTemplatesValue`). -/
def accTemplates (st : Store) : List Json → Obj → Except Err Obj
  | [], acc => .ok acc
  | tid :: rest, acc =>
    match tid with
    | .str s =>
      match get_template st s with
      | .error e => .error e
      | .ok (t, _) =>
        match _compile t.source acc with
        | some acc' => accTemplates st rest acc'
        | none => .error .typeError
    | _ => .error .typeError

/-- Embedding of `Backend.compile_instruction` (`base.py` lines 62-79): accumulate the
declared templates into `template`, merge the instruction's own source over
the result, set `metadata["compiled"] = True` and return the mutated
instruction.  The only store interaction is `get_template`, a read, so the
store comes back unchanged. -/
def compile_instruction (st : Store) (ins : Instruction) :
    Except Err (Instruction × Store) :=
  match getTemplatesValue ins.metadata with
  | .error e => .error e
  | .ok tids =>
    match accTemplates st tids [] with
    | .error e => .error e
    | .ok tacc =>
      match _compile ins.source tacc with
      | none => .error .typeError
      | some src' =>
        .ok ({ ins with
                source := src'
                metadata := assign "compiled" (.bool true) ins.metadata }, st)

/-!
Filesystem world for `FileSystemBackend.__init__`
(`hydropump/backend/file_system.py` lines 14-43).

A directory path is its component list; the world is the set of existing
directories.  `os.mkdir` creates a single directory and raises
`FileNotFoundError` when the parent does not exist, or `FileExistsError`
when the directory already does — both call sites guard the latter with
`path.exists()`, so that branch is dead, but it is embedded anyway.
-/

/-- A filesystem path, as its list of components. -/
abbrev FsPath := List String

/-- The set of directories that exist, as a list of paths. -/
abbrev DirWorld := List FsPath

/-- Real filesystems are parent-closed: a directory's parent exists. -/
def worldWF (world : DirWorld) : Prop :=
  ∀ p n, p ++ [n] ∈ world → p ∈ world

/-- The enum `SupportedFileExtensions` (`base.py` lines 14-17): members
`json = "json"`, `yaml = "yaml"` and `yml = "yaml"`.  Because `yml` reuses
the value `"yaml"`, it is an alias member *name*, not a new value. -/
inductive FileExt where
  | json : FileExt
  | yaml : FileExt
  deriving DecidableEq, Repr

/-- Embedding of `SupportedFileExtensions(file_extension)`: an enum call is
a *value* lookup, so only the member values `"json"` and `"yaml"` are
accepted; `"yml"` is an alias member name, not a value, and raises
`ValueError` like any other string. -/
def parseExt : String → Option FileExt
  | "json" => some .json
  | "yaml" => some .yaml
  | _ => none

/-- Embedding of `os.mkdir(parent/name)`: create one directory; `FileNotFoundError` when
the parent is missing; `FileExistsError` (embedded as `Err.valueError`, the
distinction is never observable: both call sites check existence first, so
that branch is dead) when the directory already exists. -/
def osMkdir (world : DirWorld) (parent : FsPath) (name : String) :
    Except Err DirWorld :=
  if (parent ++ [name]) ∈ world then .error .valueError
  else if parent ∈ world then .ok ((parent ++ [name]) :: world)
  else .error .fileNotFound

/-- Embedding of `FileSystemBackend._set_sub_directories` (`file_system.py` lines 34-43):
create `base/` and `template/` under the root when absent. -/
def _set_sub_directories (world : DirWorld) (root : FsPath) :
    Except Err DirWorld :=
  match (if (root ++ ["base"]) ∈ world then .ok world
         else osMkdir world root "base") with
  | .error e => .error e
  | .ok w1 =>
    if (root ++ ["template"]) ∈ w1 then .ok w1
    else osMkdir w1 root "template"

/-- The constructed `FileSystemBackend` object's own state. -/
structure FSBackend where
  root_directory : FsPath
  file_extension : FileExt
  deriving DecidableEq, Repr

/-- Embedding of `FileSystemBackend.__init__` (`file_system.py` lines 14-32).  The source
guard is `if not self.root_directory.exists:` — the method is referenced, not
called, and a bound-method object is always truthy, so the guard can never
raise; it is embedded as the dead branch `if false`.  Construction then
validates the extension (`ValueError` for an unsupported one) and ensures the
two subdirectories, where `os.mkdir` raises `FileNotFoundError` when the root
itself is missing. -/
def fileSystemBackendInit (world : DirWorld) (file_extension : String)
    (root_directory : FsPath) : Except Err (FSBackend × DirWorld) :=
  if false then .error .fileNotFound
  else
    match parseExt file_extension with
    | none => .error .valueError
    | some ext =>
      match _set_sub_directories world root_directory with
      | .error e => .error e
      | .ok world' =>
        .ok ({ root_directory := root_directory, file_extension := ext }, world')

/-!
The `Service` facade (`hydropump/service.py`).
-/

/-- The body of `Service._set_backend` (`service.py` lines 36-57) as the
function of a config mapping its docstring describes: pop `backend_type` and
dispatch.  `FileSystem` forwards the remaining fields to
`FileSystemBackend(**config)`; `GCPBucket` and `AWSBucket` return `None`
(unimplemented placeholders); anything else raises `ValueError`; a missing
`backend_type` key makes `config.pop` raise `KeyError`.  Note this body is
unreachable through `Service.__init__` — see `serviceInit`. -/
inductive SetBackendOutcome where
  | fileSystemCall (remaining : Obj) : SetBackendOutcome
  | noneBackend : SetBackendOutcome
  deriving DecidableEq, Repr

/-- Removal of a key, for `config.pop`. -/
def removeKey (k : String) : Obj → Obj
  | [] => []
  | (k', v) :: rest => if k' = k then rest else (k', v) :: removeKey k rest

/-- See `SetBackendOutcome`. -/
def _set_backend_body (config : Obj) : Except Err SetBackendOutcome :=
  match lookup "backend_type" config with
  | none => .error .keyError
  | some v =>
    if v = .str "FileSystem" then .ok (.fileSystemCall (removeKey "backend_type" config))
    else if v = .str "GCPBucket" then .ok .noneBackend
    else if v = .str "AWSBucket" then .ok .noneBackend
    else .error .valueError

/-- Embedding of `Service.__init__` (`service.py` lines 13-34), reduced to which backend
the service ends up with.

- With a backend argument, it is kept (the `isinstance` check passes for any
  actual `Backend`, which the embedding enforces by typing).
- With neither backend nor config, the source evaluates `FileSystemBackend()`
  — but `FileSystemBackend.__init__` has no default for its required
  `file_extension` parameter, so the call raises `TypeError`.
- With a config and no backend, the source calls `self._set_backend(config)`
  — but `_set_backend` is declared `def _set_backend(config: dict)` without a
  `self` parameter, so the bound-method call passes two arguments to a
  one-parameter function and raises
  `TypeError: _set_backend() takes 1 positional argument but 2 were given`,
  for every config value; the dispatch in `_set_backend_body` is never
  reached. -/
def serviceInit (backend : Option FSBackend) (config : Option Obj) :
    Except Err FSBackend :=
  match backend with
  | some b => .ok b
  | none =>
    match config with
    | none => .error .typeError
    | some _ => .error .typeError

/-- Embedding of `Service.create_template` (`service.py` lines 92-109): stamp
`metadata["createdAt"]` (the wall-clock time is the parameter `now`) and
persist through `put_template` with keyword arguments `metadata`, `source`
and `template_id` — the `template` argument stays `None`.  Note the
`template_id` parameter of `create_template` has no default value in the
source, so a call that omits it raises `TypeError` before this body runs;
passing `None` explicitly reaches `put_template`'s identification guard. -/
def service_create_template (st : Store) (metadata source : Obj)
    (template_id : Option String) (now : String) : Except Err (Template × Store) :=
  let metadata' := assign "createdAt" (.str now) metadata
  put_template st none template_id (some metadata') (some source)

/-- Embedding of `Service.delete_instruction` (`service.py` lines 185-192): delegate to
`delete_base` with only the id. -/
def service_delete_instruction (st : Store) (instruction_id : String) :
    Except Err Store :=
  delete_base st none (some instruction_id)

/-- Embedding of `Service.delete_template` (`service.py` lines 176-183): delegate to
`delete_template` with only the id. -/
def service_delete_template (st : Store) (template_id : String) :
    Except Err Store :=
  delete_template st none (some template_id)

/-- Embedding of `Service.get_template` (`service.py` lines 80-90): fetch and return the
raw template. -/
def service_get_template (st : Store) (template_id : String) :
    Except Err (Template × Store) :=
  get_template st template_id

/-!
Derived notions used to state the claims.
-/

/-- A mapping with the entries whose value falls through every branch of
`Backend._compile` (only `null` in a JSON document) removed, at every mapping
level reached through mapping nesting.  `_compile s []` computes exactly
this (`stripNulls_compile` below): merging over the empty accumulator drops
the unrecognized values and keeps everything else. -/
def stripNulls : Obj → Obj
  | [] => []
  | (k, v) :: rest =>
    match v with
    | .null => stripNulls rest
    | .obj f => (k, .obj (stripNulls f)) :: stripNulls rest
    | v => (k, v) :: stripNulls rest

mutual

/-- Well-formedness of a mapping as produced by a JSON/YAML codec: keys are
unique at every mapping level reached through mapping nesting. -/
def objWF : Obj → Bool
  | [] => true
  | (k, v) :: rest => (!(keysB rest).contains k) && valWF v && objWF rest

/-- Well-formedness of a value: its mappings have unique keys. -/
def valWF : Json → Bool
  | .obj f => objWF f
  | _ => true

end

mutual

/-- No entry of the mapping (at any mapping level reached through mapping
nesting) has a `null` value. -/
def objNoNull : Obj → Bool
  | [] => true
  | (_, v) :: rest => valNoNull v && objNoNull rest

/-- See `objNoNull`. -/
def valNoNull : Json → Bool
  | .null => false
  | .obj f => objNoNull f
  | _ => true

end

/-!
Concrete stores, instructions and templates used to evaluate the claims on
explicit inputs.
-/

/-- An instruction with an empty template list and a null-valued source
field. -/
def c6ins : Instruction :=
  { instruction_id := "i", metadata := [], source := [("a", Json.null)] }

/-- The compiled form of `c6ins`: the null-valued field is gone. -/
def c6compiled : Instruction :=
  { instruction_id := "i", metadata := [("compiled", .bool true)], source := [] }

/-- An instruction with an empty template list and no null values. -/
def w6ins : Instruction :=
  { instruction_id := "j", metadata := [], source := [("a", .num 1)] }

/-- A store whose persisted metadata already says `compiled: true` in both
namespaces. -/
def w9store : Store :=
  { base := fun i => if i = "b" then some ⟨[("compiled", .bool true)], []⟩ else none
    template := fun i => if i = "t" then some ⟨[("compiled", .bool true)], []⟩ else none }

/-!
Association-list lemmas.
-/

theorem lookup_assign_self (k : String) (v : Json) (l : Obj) :
    lookup k (assign k v l) = some v := by
  induction l with
  | nil => simp [assign, lookup]
  | cons hd tl ih =>
    obtain ⟨k', v'⟩ := hd
    by_cases h : k' = k <;> simp [assign, lookup, h, ih]

theorem keysB_nil : keysB [] = [] := rfl

theorem keysB_cons (k0 : String) (v0 : Json) (tl : Obj) :
    keysB ((k0, v0) :: tl) = k0 :: keysB tl := rfl

theorem lookup_assign_ne {k' k : String} (h : k' ≠ k) (v : Json) (l : Obj) :
    lookup k' (assign k v l) = lookup k' l := by
  induction l with
  | nil =>
    have hk : ¬(k = k') := fun hh => h hh.symm
    simp [assign, lookup, hk]
  | cons hd tl ih =>
    obtain ⟨k0, v0⟩ := hd
    by_cases h0 : k0 = k
    · subst h0
      have hk : ¬(k0 = k') := fun hh => h hh.symm
      simp [assign, lookup, hk]
    · simp [assign, lookup, h0, ih]

theorem lookup_eq_none_iff (k : String) (l : Obj) :
    lookup k l = none ↔ k ∉ keysB l := by
  induction l with
  | nil => simp [lookup, keysB]
  | cons hd tl ih =>
    obtain ⟨k0, v0⟩ := hd
    by_cases h0 : k0 = k
    · subst h0
      simp [lookup, keysB_cons]
    · have h0' : ¬(k = k0) := fun hh => h0 hh.symm
      simp [lookup, keysB_cons, h0, h0', ih]

theorem lookup_mem_keys {k : String} {l : Obj} {v : Json}
    (h : lookup k l = some v) : k ∈ keysB l := by
  by_contra hk
  rw [← lookup_eq_none_iff] at hk
  rw [h] at hk
  exact Option.noConfusion hk

theorem assign_of_lookup_none {k : String} {l : Obj} (h : lookup k l = none)
    (v : Json) : assign k v l = l ++ [(k, v)] := by
  induction l with
  | nil => simp [assign]
  | cons hd tl ih =>
    obtain ⟨k0, v0⟩ := hd
    by_cases h0 : k0 = k
    · simp [lookup, h0] at h
    · simp [lookup, h0] at h
      simp [assign, h0, ih h]

theorem lookup_append (k : String) (l1 l2 : Obj) :
    lookup k (l1 ++ l2) =
      match lookup k l1 with
      | some v => some v
      | none => lookup k l2 := by
  induction l1 with
  | nil => simp [lookup]
  | cons hd tl ih =>
    obtain ⟨k0, v0⟩ := hd
    by_cases h0 : k0 = k <;> simp [lookup, h0, ih]

theorem not_mem_of_contains_false {ks : List String} {k : String}
    (h : (!ks.contains k) = true) : k ∉ ks := by
  simpa using h

theorem contains_false_of_not_mem {ks : List String} {k : String}
    (h : k ∉ ks) : (!ks.contains k) = true := by
  simpa using h

theorem keys_stripNulls_sub {k : String} :
    ∀ {s : Obj}, k ∈ keysB (stripNulls s) → k ∈ keysB s := by
  intro s
  induction s using stripNulls.induct with
  | case1 => simp [stripNulls]
  | case2 k0 rest ih =>
    intro h
    rw [stripNulls] at h
    rw [keysB_cons]
    exact List.mem_cons_of_mem _ (ih h)
  | case3 k0 rest f ihf ihr =>
    intro h
    rw [stripNulls] at h
    rw [keysB_cons] at h ⊢
    rcases List.mem_cons.mp h with h | h
    · exact List.mem_cons.mpr (Or.inl h)
    · exact List.mem_cons.mpr (Or.inr (ihr h))
  | case4 k0 rest v hv1 hv2 ih =>
    intro h
    cases v with
    | null => exact absurd rfl hv1
    | obj f => exact absurd rfl (hv2 f)
    | str s =>
      simp only [stripNulls, keysB_cons, List.mem_cons] at h ⊢
      rcases h with h | h
      · exact Or.inl h
      · exact Or.inr (ih h)
    | num n =>
      simp only [stripNulls, keysB_cons, List.mem_cons] at h ⊢
      rcases h with h | h
      · exact Or.inl h
      · exact Or.inr (ih h)
    | bool b =>
      simp only [stripNulls, keysB_cons, List.mem_cons] at h ⊢
      rcases h with h | h
      · exact Or.inl h
      · exact Or.inr (ih h)
    | arr xs =>
      simp only [stripNulls, keysB_cons, List.mem_cons] at h ⊢
      rcases h with h | h
      · exact Or.inl h
      · exact Or.inr (ih h)

theorem stripNulls_compile : ∀ s : Obj, objWF s = true →
    ∀ out : Obj, (∀ k, k ∈ keysB s → lookup k out = none) →
    _compile s out = some (out ++ stripNulls s) := by
  intro s
  induction s using stripNulls.induct with
  | case1 =>
    intro _ out _
    simp [_compile, stripNulls]
  | case2 k rest ih =>
    intro hwf out hfresh
    simp only [objWF, valWF, Bool.and_eq_true] at hwf
    simp only [_compile, _compileStep, stripNulls]
    exact ih hwf.2 out fun k' hk' =>
      hfresh k' (by rw [keysB_cons]; exact List.mem_cons_of_mem _ hk')
  | case3 k rest f ihf ihr =>
    intro hwf out hfresh
    simp only [objWF, valWF, Bool.and_eq_true] at hwf
    obtain ⟨⟨hcont, hwff⟩, hwfr⟩ := hwf
    have hkout : lookup k out = none :=
      hfresh k (by rw [keysB_cons]; exact List.mem_cons_self _ _)
    have hsub : _compile f [] = some (stripNulls f) := by
      simpa using ihf hwff [] (by intro k' _; rfl)
    simp only [_compile, _compileStep, hkout, hsub]
    rw [assign_of_lookup_none hkout]
    have hres := ihr hwfr (out ++ [(k, Json.obj (stripNulls f))]) ?_
    · rw [hres, stripNulls]
      simp
    · intro k' hk'
      have hk'k : k' ≠ k := by
        intro hh
        subst hh
        exact (not_mem_of_contains_false hcont) hk'
      rw [lookup_append, hfresh k' (by rw [keysB_cons]; exact List.mem_cons_of_mem _ hk')]
      have hkk' : ¬(k = k') := fun hh => hk'k hh.symm
      simp [lookup, hkk']
  | case4 k rest v hv1 hv2 ih =>
    intro hwf out hfresh
    simp only [objWF, Bool.and_eq_true] at hwf
    obtain ⟨⟨hcont, hwfv⟩, hwfr⟩ := hwf
    have hkout : lookup k out = none :=
      hfresh k (by rw [keysB_cons]; exact List.mem_cons_self _ _)
    have hfresh' : ∀ k', k' ∈ keysB rest → lookup k' (out ++ [(k, v)]) = none := by
      intro k' hk'
      have hk'k : k' ≠ k := by
        intro hh
        subst hh
        exact (not_mem_of_contains_false hcont) hk'
      rw [lookup_append, hfresh k' (by rw [keysB_cons]; exact List.mem_cons_of_mem _ hk')]
      have hkk' : ¬(k = k') := fun hh => hk'k hh.symm
      simp [lookup, hkk']
    have hres := ih hwfr (out ++ [(k, v)]) hfresh'
    cases v with
    | null => exact absurd rfl hv1
    | obj f => exact absurd rfl (hv2 f)
    | str s =>
      simp only [_compile, _compileStep]
      rw [assign_of_lookup_none hkout, hres]
      simp [stripNulls]
    | num n =>
      simp only [_compile, _compileStep]
      rw [assign_of_lookup_none hkout, hres]
      simp [stripNulls]
    | bool b =>
      simp only [_compile, _compileStep]
      rw [assign_of_lookup_none hkout, hres]
      simp [stripNulls]
    | arr xs =>
      simp only [_compile, _compileStep, hkout]
      rw [assign_of_lookup_none hkout, hres]
      simp [stripNulls]

theorem stripNulls_idem : ∀ s : Obj, stripNulls (stripNulls s) = stripNulls s := by
  intro s
  induction s using stripNulls.induct with
  | case1 => simp [stripNulls]
  | case2 k rest ih => simp [stripNulls, ih]
  | case3 k rest f ihf ihr => simp [stripNulls, ihf, ihr]
  | case4 k rest v hv1 hv2 ih => cases v <;> simp_all [stripNulls]

theorem stripNulls_noNull : ∀ s : Obj, objNoNull s = true → stripNulls s = s := by
  intro s
  induction s using stripNulls.induct with
  | case1 => simp [stripNulls]
  | case2 k rest ih =>
    intro h
    simp [objNoNull, valNoNull] at h
  | case3 k rest f ihf ihr =>
    intro h
    simp only [objNoNull, valNoNull, Bool.and_eq_true] at h
    simp [stripNulls, ihf h.1, ihr h.2]
  | case4 k rest v hv1 hv2 ih =>
    intro h
    simp only [objNoNull, Bool.and_eq_true] at h
    cases v <;> simp_all [stripNulls]

theorem stripNulls_objWF : ∀ s : Obj, objWF s = true →
    objWF (stripNulls s) = true := by
  intro s
  induction s using stripNulls.induct with
  | case1 => simp [stripNulls]
  | case2 k rest ih =>
    intro h
    simp only [objWF, valWF, Bool.and_eq_true] at h
    rw [stripNulls]
    exact ih h.2
  | case3 k rest f ihf ihr =>
    intro h
    simp only [objWF, valWF, Bool.and_eq_true] at h
    obtain ⟨⟨hcont, hwff⟩, hwfr⟩ := h
    rw [stripNulls]
    simp only [objWF, valWF, Bool.and_eq_true]
    refine ⟨⟨?_, ihf hwff⟩, ihr hwfr⟩
    exact contains_false_of_not_mem
      (fun hc => (not_mem_of_contains_false hcont) (keys_stripNulls_sub hc))
  | case4 k rest v hv1 hv2 ih =>
    intro h
    simp only [objWF, Bool.and_eq_true] at h
    obtain ⟨⟨hcont, hwfv⟩, hwfr⟩ := h
    have hsub : (!(keysB (stripNulls rest)).contains k) = true :=
      contains_false_of_not_mem
        (fun hc => (not_mem_of_contains_false hcont) (keys_stripNulls_sub hc))
    cases v with
    | null => exact absurd rfl hv1
    | obj f => exact absurd rfl (hv2 f)
    | str s =>
      have hrest := ih hwfr
      simp [stripNulls, objWF, valWF, hrest]
      exact not_mem_of_contains_false hsub
    | num n =>
      have hrest := ih hwfr
      simp [stripNulls, objWF, valWF, hrest]
      exact not_mem_of_contains_false hsub
    | bool b =>
      have hrest := ih hwfr
      simp [stripNulls, objWF, valWF, hrest]
      exact not_mem_of_contains_false hsub
    | arr xs =>
      have hrest := ih hwfr
      simp [stripNulls, objWF, valWF, hrest]
      exact not_mem_of_contains_false hsub

/-!
Lemmas about the template-accumulation loop of `compile_instruction`.
-/

theorem assign_assign (k : String) (v : Json) (l : Obj) :
    assign k v (assign k v l) = assign k v l := by
  induction l with
  | nil => simp [assign]
  | cons hd tl ih =>
    obtain ⟨k0, v0⟩ := hd
    by_cases h0 : k0 = k <;> simp [assign, h0, ih]

/-- C6 counterexample: an instruction with an empty template list whose
source holds a null-valued field compiles successfully, but the compiled
source is not the original source — the null-valued field is dropped. -/
theorem claim_C6_counterexample :
    lookup "templates" c6ins.metadata = none
    ∧ compile_instruction emptyStore c6ins = .ok (c6compiled, emptyStore)
    ∧ c6compiled.source ≠ c6ins.source :=
  ⟨rfl, rfl, by decide⟩

/-- C6 as amended: for every instruction whose declared template list is
empty, compilation succeeds and is idempotent
(`compile (compile I) = compile I`), and the compiled source is the original
source with null-valued entries removed at every mapping level — equal to
the original source unchanged whenever the source holds no null-valued
entry. -/
theorem claim_C6_amended (st : Store) (I : Instruction)
    (htmpl : lookup "templates" I.metadata = none ∨
      lookup "templates" I.metadata = some (.arr []))
    (hwf : objWF I.source = true) :
    ∃ I', compile_instruction st I = .ok (I', st)
      ∧ compile_instruction st I' = .ok (I', st)
      ∧ I'.source = stripNulls I.source
      ∧ (objNoNull I.source = true → I'.source = I.source) := by
  have hsrc : _compile I.source [] = some (stripNulls I.source) := by
    simpa using stripNulls_compile I.source hwf [] (fun k _ => rfl)
  have htv : getTemplatesValue I.metadata = .ok [] := by
    rcases htmpl with h | h <;> simp [getTemplatesValue, h]
  refine ⟨{ I with source := stripNulls I.source, metadata := assign "compiled" (.bool true) I.metadata }, ?_, ?_, rfl, ?_⟩
  · simp only [compile_instruction, htv, accTemplates, hsrc]
  · have hne : ("templates" : String) ≠ "compiled" := by decide
    have htv' : getTemplatesValue (assign "compiled" (.bool true) I.metadata) = .ok [] := by
      rcases htmpl with h | h <;>
        simp [getTemplatesValue, lookup_assign_ne hne, h]
    have hwf' : objWF (stripNulls I.source) = true := stripNulls_objWF _ hwf
    have hsrc' : _compile (stripNulls I.source) [] = some (stripNulls I.source) := by
      have hh := stripNulls_compile (stripNulls I.source) hwf' [] (fun k _ => rfl)
      simpa [stripNulls_idem] using hh
    simp only [compile_instruction, htv', accTemplates, hsrc']
    simp [assign_assign]
  · intro hnn
    simp [stripNulls_noNull _ hnn]

/-- Witness for the amended C6, at an instruction with an empty template
list and a null-free source. -/
theorem claim_C6_amended_witness :
    ∃ I', compile_instruction emptyStore w6ins = .ok (I', emptyStore)
      ∧ compile_instruction emptyStore I' = .ok (I', emptyStore)
      ∧ I'.source = stripNulls w6ins.source
      ∧ (objNoNull w6ins.source = true → I'.source = w6ins.source) :=
  claim_C6_amended emptyStore w6ins (Or.inl rfl) (by decide)

/-- C3 (code bug): constructing a `Service` from a backend configuration
descriptor always fails.  `_set_backend` is declared `def _set_backend(config)`
without a `self` parameter but is called as `self._set_backend(config)`, so
the bound-method call passes two arguments to a one-parameter function and
raises `TypeError` before any dispatch on `backend_type` — for the
recognized `FileSystem` descriptor just like for unrecognized ones.  The
theorem evaluates construction on every config, in particular on the
canonical FileSystem descriptor. -/
theorem claim_C3 :
    (∀ config : Obj, serviceInit none (some config) = .error .typeError)
    ∧ serviceInit none (some [("backend_type", .str "FileSystem"),
        ("file_extension", .str "json"), ("root_directory", .str ".")]) =
      .error .typeError :=
  ⟨fun _ => rfl, rfl⟩

/-- C4: constructing a `FileSystemBackend` (with a recognized file
extension) on a root directory that does not exist fails with
`FileNotFoundError`.  The intended guard `if not self.root_directory.exists:`
never fires (the method is referenced, not called), but `os.mkdir` for the
`base/` subdirectory raises `FileNotFoundError` because its parent — the
root — is missing; the backend never creates the root itself. -/
theorem claim_C4 (world : DirWorld) (root : FsPath) (fe : String)
    (ext : FileExt) (hwf : worldWF world) (hroot : root ∉ world)
    (hext : parseExt fe = some ext) :
    fileSystemBackendInit world fe root = .error .fileNotFound := by
  have hbase : (root ++ ["base"]) ∉ world := fun h => hroot (hwf root "base" h)
  simp only [fileSystemBackendInit, hext, if_false]
  simp only [_set_sub_directories, osMkdir]
  simp [hbase, hroot]

/-- Witness for C4: an empty filesystem and the missing root `r`. -/
theorem claim_C4_witness :
    fileSystemBackendInit [] "json" ["r"] = .error .fileNotFound :=
  claim_C4 [] ["r"] "json" .json (by intro p n h; simp at h) (by decide) rfl

/-- C5 (code bug): `create_template` cannot assign a generated id when the
caller omits the template id.  The `template_id` parameter has no default
value in the source, so omitting it raises `TypeError` at the call site; and
passing `None` explicitly reaches `put_template`, whose identification guard
raises `ValueError` because neither a template object nor an id was given.
Either way nothing is persisted, no id is generated, and the call fails —
contradicting both the claim and the method's own docstring.  The theorem
evaluates the `None` path for every metadata, source and timestamp, and at a
concrete input. -/
theorem claim_C5 :
    (∀ (st : Store) (metadata source : Obj) (now : String),
      service_create_template st metadata source none now = .error .valueError)
    ∧ service_create_template emptyStore [] [] none "2024-01-01" =
      .error .valueError :=
  ⟨fun _ _ _ _ => rfl, rfl⟩

/-- C7 counterexample: the empty-string id has no persisted entry, yet
deleting it does not succeed silently: `delete_base`'s falsy-id fallback
`instruction_id or instruction.instruction_id` evaluates
`instruction.instruction_id` with `instruction = None` and raises
`AttributeError`. -/
theorem claim_C7_counterexample :
    emptyStore.base "" = none
    ∧ service_delete_instruction emptyStore "" = .error .attributeError :=
  ⟨rfl, rfl⟩

/-- C7 as amended: for every id with no persisted base entry, `get_base`
fails with `FileNotFoundError` (NotFound); for every NON-empty id with no
persisted entry, `delete_instruction` (via `delete_base`) succeeds silently
and leaves the store unchanged; and symmetrically for templates.  The
non-emptiness proviso is forced by the falsy-id fallback — see the
counterexample. -/
theorem claim_C7_amended (st : Store) (id : String) :
    (st.base id = none → get_base st id = .error .fileNotFound)
    ∧ (id ≠ "" → st.base id = none →
      service_delete_instruction st id = .ok st)
    ∧ (st.template id = none → get_template st id = .error .fileNotFound)
    ∧ (id ≠ "" → st.template id = none →
      service_delete_template st id = .ok st) := by
  refine ⟨?_, ?_, ?_, ?_⟩
  · intro h
    simp [get_base, h]
  · intro hne h
    simp [service_delete_instruction, delete_base, strFalsy, hne, h]
  · intro h
    simp [get_template, h]
  · intro hne h
    simp [service_delete_template, delete_template, strFalsy, hne, h]

/-- Witness for the amended C7, at the unknown non-empty id `x` in the empty
store. -/
theorem claim_C7_witness :
    get_base emptyStore "x" = .error .fileNotFound
    ∧ service_delete_instruction emptyStore "x" = .ok emptyStore
    ∧ get_template emptyStore "x" = .error .fileNotFound
    ∧ service_delete_template emptyStore "x" = .ok emptyStore := by
  have h := claim_C7_amended emptyStore "x"
  exact ⟨h.1 rfl, h.2.1 (by decide) rfl, h.2.2.1 rfl, h.2.2.2 (by decide) rfl⟩

/-- C9: every `Instruction` returned by `get_base` and every `Template`
returned by `get_template` has `metadata["compiled"] = False`, whatever
`compiled` value the persisted metadata holds — the entity constructors
unconditionally overwrite the key. -/
theorem claim_C9 (st : Store) (id : String) :
    (∀ ins st', get_base st id = .ok (ins, st') →
      lookup "compiled" ins.metadata = some (.bool false))
    ∧ (∀ t st', get_template st id = .ok (t, st') →
      lookup "compiled" t.metadata = some (.bool false)) := by
  constructor
  · intro ins st' h
    rcases hb : st.base id with _ | e <;> simp only [get_base, hb] at h
    · cases h
    · cases h
      simpa [Instruction.make] using
        lookup_assign_self "compiled" (Json.bool false) e.metadata
  · intro t st' h
    rcases hb : st.template id with _ | e <;> simp only [get_template, hb] at h
    · cases h
    · cases h
      simpa [Template.make] using
        lookup_assign_self "compiled" (Json.bool false) e.metadata

/-- Witness for C9: a store whose persisted metadata says `compiled: true`
in both namespaces; reads still return `compiled: false`. -/
theorem claim_C9_witness :
    lookup "compiled"
      (Instruction.make (some "b") [("compiled", Json.bool true)] []).metadata =
      some (.bool false)
    ∧ lookup "compiled"
      (Template.make (some "t") [("compiled", Json.bool true)] []).metadata =
      some (.bool false) :=
  ⟨(claim_C9 w9store "b").1 _ w9store rfl, (claim_C9 w9store "t").2 _ w9store rfl⟩

end HydroPump
